import Mathlib

/-!
Verification of the inventory reconciliation and audit-logged mutation core of
the Shopify-Integration repository (Django app `products`).

The embedding follows the source files:
  * `products/models.py`   — `Product.save`, `ProductInventoryLog.save`
  * `products/views.py`    — `ProductViewSet.update_inventory`, `ShopifyWebhookView.post`
  * `products/serializers.py` — `WebhookInventoryUpdateSerializer`
  * `products/tasks.py`    — `import_products_from_csv`, `validate_and_update_inventory`,
                              `generate_inventory_report`, `nightly_inventory_update`

Modelling conventions:
  * Python scalar values that travel through request payloads / pandas frames are
    modelled by `PyVal` (`none` = Python `None`, `nan` = a pandas/float NaN,
    `int`, `str`).  Decimal literals are modelled as integers (the claims under
    study never depend on fractional values).
  * The relational store (SQLite via the Django ORM) is a `Store`: a list of
    product rows, a list of inventory-log rows (newest first, matching the
    models' `-timestamp` ordering), a fresh-primary-key counter and the list of
    notification e-mails sent.  Database-level constraint failures
    (`PositiveIntegerField` check constraints, NOT NULL on
    `ProductInventoryLog.change`) are modelled by `Option`-returning writes;
    `Option.none` at the end of an atomic block models the rollback performed by
    `transaction.atomic()`.
  * Wall-clock time is an `Int` parameter `now` (`timezone.now()`), and
    `auto_now` / `auto_now_add` columns are set from it.
-/

/-- A Python scalar value as it appears in request payloads and pandas rows. -/
inductive PyVal where
  | none
  | nan
  | int (n : Int)
  | str (s : String)
deriving DecidableEq

/-- Python truthiness of a `PyVal` (`bool(x)`): `None` is falsy, NaN is truthy,
numbers are truthy iff nonzero, strings iff nonempty. -/
def truthyV : PyVal → Bool
  | PyVal.none => false
  | PyVal.nan => true
  | PyVal.int n => n ≠ 0
  | PyVal.str s => s ≠ ""

/-- Parse a (decimal, optionally sign-prefixed) integer literal, as Python
`int(str)` does.  Non-integer text fails. -/
def parseIntStr (s : String) : Option Int :=
  if s = "" then Option.none
  else if s.front = '-' then ((s.drop 1).toNat?).map (fun n => -(n : Int))
  else (s.toNat?).map (fun n => (n : Int))

/-- Python `int(x)` on a scalar: integers pass through, integer-literal strings
parse, `NaN` raises `ValueError` and `None` raises `TypeError` (both modelled
as `Option.none`). -/
def pyToInt : PyVal → Option Int
  | PyVal.int n => some n
  | PyVal.str s => parseIntStr s
  | _ => Option.none

/-- DRF `CharField(required=True)` coercion: nonempty strings pass
(`allow_blank` defaults to false), numbers are stringified, everything else is
rejected. -/
def charFieldToStr : PyVal → Option String
  | PyVal.str s => if s = "" then Option.none else some s
  | PyVal.int n => some (toString n)
  | _ => Option.none

/-- One row of the `products_product` table. -/
structure DBProduct where
  id : Nat
  sku : PyVal
  name : PyVal
  price : PyVal
  qty : Int
  description : PyVal
  lastInvUpdate : Int
  updatedAt : Int
  createdAt : Int
  shopifyId : Option String
deriving DecidableEq

/-- One row of the `products_productinventorylog` table. -/
structure LogEntry where
  productId : Nat
  previous_quantity : Int
  new_quantity : Int
  change : Int
  change_type : String
  notes : String
  timestamp : Int
deriving DecidableEq

/-- An unsaved `ProductInventoryLog` instance as constructed by the callers;
`change` is `Option.none` unless the caller pre-set it (no caller in the
repository does). -/
structure LogDraft where
  productId : Nat
  previous_quantity : Int
  new_quantity : PyVal
  change : Option Int
  change_type : String
  notes : String
deriving DecidableEq

/-- The persistent state: product rows, log rows (newest first), the next free
primary key, and the outbox of notification e-mails. -/
structure Store where
  products : List DBProduct
  logs : List LogEntry
  nextId : Nat
  mailsSent : List String
deriving DecidableEq

/-- `ProductInventoryLog.save` (models.py:111-117) followed by the row insert.
The override recomputes `change := new - previous` only when
`previous_quantity != new_quantity`; otherwise the caller-supplied value (or
NULL) is written.  The insert fails — `Option.none`, i.e. `IntegrityError` —
when `change` would be NULL, when `new_quantity` is not an integer, or when a
quantity violates the `PositiveIntegerField` check constraints. -/
def logComputedChange (d : LogDraft) : Option Int :=
  if d.new_quantity = PyVal.int d.previous_quantity then d.change
  else match d.new_quantity with
    | PyVal.int n => some (n - d.previous_quantity)
    | _ => Option.none

def logSave (ts : Int) (d : LogDraft) : Option LogEntry :=
  match d.new_quantity, logComputedChange d with
  | PyVal.int n, some c =>
    if n < 0 ∨ d.previous_quantity < 0 then Option.none
    else some (LogEntry.mk d.productId d.previous_quantity n c d.change_type d.notes ts)
  | _, _ => Option.none

/-- `UPDATE products_product SET ... WHERE id = inst.id` with a full row image:
every row whose `id` matches is replaced by `inst`. -/
def replaceById (ps : List DBProduct) (inst : DBProduct) : List DBProduct :=
  ps.map (fun q => if q.id = inst.id then inst else q)

/-- The row image written by `Product.save` (models.py:35-43): the instance,
with `last_inventory_update` bumped iff the stored quantity (of the original
row `orig`) differs from the instance's, and `updated_at` stamped
(`auto_now`). -/
def productSaveRow (now : Int) (inst orig : DBProduct) : DBProduct :=
  if orig.qty ≠ inst.qty then { inst with lastInvUpdate := now, updatedAt := now }
  else { inst with updatedAt := now }

/-- `Product.save` on an already-persisted instance: fetch the original row,
compute the row image, and write it back.  The write fails when the quantity
violates the non-negativity check constraint. -/
def productSave (now : Int) (st : Store) (inst : DBProduct) : Option Store :=
  match st.products.find? (fun p => decide (p.id = inst.id)) with
  | Option.none => Option.none
  | some orig =>
    if (productSaveRow now inst orig).qty < 0 then Option.none
    else some { st with products := replaceById st.products (productSaveRow now inst orig) }

/-- One normalized batch record (a `to_dict('records')` row). -/
structure Item where
  sku : PyVal
  name : PyVal
  price : PyVal
  inventory_quantity : PyVal
  description : PyVal
deriving DecidableEq

/-- The status envelope passed between pipeline stages (the result dicts of the
three Celery tasks, with the keys the claims mention). -/
structure Envelope where
  status : String
  message : String
  data : List Item
  created : Nat
  updated : Nat
  errors : List String
deriving DecidableEq

/-- `Product.objects.filter(sku=...).first()` / the lookup of `get_or_create`. -/
def findBySku (st : Store) (v : PyVal) : Option DBProduct :=
  st.products.find? (fun p => decide (p.sku = v))

/-- The accumulator of the reconciliation loop of
`validate_and_update_inventory`. -/
structure RecResult where
  store : Store
  created : Nat
  updated : Nat
  errors : List String
deriving DecidableEq

/-- The `was_created` branch of one reconciliation record (tasks.py:153-172):
`get_or_create` inserts the product and the initial-import log entry is
created; failure of either write rolls the per-record transaction back. -/
def recCreate (now : Int) (st : Store) (it : Item) : Option Store :=
  match it.inventory_quantity with
  | PyVal.int n =>
    if n < 0 then Option.none
    else
      match logSave now (LogDraft.mk st.nextId 0 (PyVal.int n) Option.none "import" "Initial import") with
      | some e => some (Store.mk
          (DBProduct.mk st.nextId it.sku it.name it.price n it.description now now now Option.none
            :: st.products)
          (e :: st.logs) (st.nextId + 1) st.mailsSent)
      | Option.none => Option.none
  | _ => Option.none

/-- The changed-quantity branch of one reconciliation record (tasks.py:175-187):
log first (pre-update state), then write the quantity through `Product.save`;
both inside the same per-record transaction. -/
def recUpdateChanged (now : Int) (st : Store) (p : DBProduct) (it : Item) : Option Store :=
  match logSave now (LogDraft.mk p.id p.qty it.inventory_quantity Option.none "import" "CSV import update") with
  | some e =>
    match productSave now st { p with qty := e.new_quantity } with
    | some st1 => some { st1 with logs := e :: st1.logs }
    | Option.none => Option.none
  | Option.none => Option.none

/-- `Product.objects.filter(id=...).update(name=..., price=..., description=...)`
(tasks.py:190-194): a direct queryset update that bypasses the `save` hooks, so
neither `updated_at` nor `last_inventory_update` is touched. -/
def qsUpdateFields (st : Store) (pid : Nat) (nm pr ds : PyVal) : Store :=
  let ps := st.products.map
    (fun q => if q.id = pid then { q with name := nm, price := pr, description := ds } else q)
  { st with products := ps }

/-- Whether the `created += 1` of tasks.py:164 executes for a record whose SKU
was absent: `get_or_create` must have inserted the product row, which in this
store model succeeds exactly when the incoming quantity is a non-negative
integer.  The increment runs *before* the initial-import log insert of
tasks.py:166-172, and the Python counter is not rolled back when that insert
fails and the per-record transaction aborts. -/
def createCounted (it : Item) : Bool :=
  match it.inventory_quantity with
  | PyVal.int n => decide (0 ≤ n)
  | _ => false

/-- One iteration of the reconciliation loop (tasks.py:138-199).  Any store
failure inside the per-record `transaction.atomic()` is caught, recorded as an
error string, and rolls the store back to what it was before the record; the
`created` counter of tasks.py:164, however, is incremented before the
initial-import log insert and survives the rollback. -/
def processItem (now : Int) (acc : RecResult) (it : Item) : RecResult :=
  if truthyV it.sku = false ∨ truthyV it.name = false ∨ it.price = PyVal.none then
    { acc with errors := acc.errors ++ ["Invalid data for product"] }
  else
    match findBySku acc.store it.sku with
    | Option.none =>
      match recCreate now acc.store it with
      | some st1 => RecResult.mk st1 (acc.created + 1) acc.updated acc.errors
      | Option.none =>
        RecResult.mk acc.store
          (if createCounted it then acc.created + 1 else acc.created) acc.updated
          (acc.errors ++ ["Error processing product"])
    | some p =>
      if it.inventory_quantity = PyVal.int p.qty then
        RecResult.mk (qsUpdateFields acc.store p.id it.name it.price it.description)
          acc.created (acc.updated + 1) acc.errors
      else
        match recUpdateChanged now acc.store p it with
        | some st1 => RecResult.mk (qsUpdateFields st1 p.id it.name it.price it.description)
            acc.created (acc.updated + 1) acc.errors
        | Option.none => { acc with errors := acc.errors ++ ["Error processing product"] }

/-- `validate_and_update_inventory` (tasks.py:107-223): propagate a non-success
envelope untouched, short-circuit an empty batch, otherwise fold the
reconciliation loop over the records. -/
def validate_and_update_inventory (now : Int) (env : Envelope) (st : Store) : Envelope × Store :=
  if env.status ≠ "success" then (env, st)
  else if env.data = [] then
    (Envelope.mk "success" "No products to validate and update" [] 0 0 [], st)
  else
    let r := env.data.foldl (processItem now) (RecResult.mk st 0 0 [])
    (Envelope.mk "success" "Processed products" [] r.created r.updated r.errors, r.store)

/-- `generate_inventory_report` (tasks.py:226-324): propagate a non-success
envelope untouched; otherwise compute the aggregates against current store
state and dispatch the notification e-mail. -/
def generate_inventory_report (now : Int) (env : Envelope) (st : Store) : Envelope × Store :=
  if env.status ≠ "success" then (env, st)
  else
    let total := st.products.length
    let low := (st.products.filter (fun p => decide (p.qty < 10))).length
    let oos := (st.products.filter (fun p => decide (p.qty = 0))).length
    let recent := (st.logs.filter (fun e => decide (now - 86400 ≤ e.timestamp))).length
    let body := "Inventory Update Report: total " ++ toString total
      ++ ", low stock " ++ toString low
      ++ ", out of stock " ++ toString oos
      ++ ", recent updates " ++ toString recent
      ++ ", created " ++ toString env.created
      ++ ", updated " ++ toString env.updated
      ++ ", errors " ++ toString env.errors.length
    (Envelope.mk "success" "Report generated and sent" [] env.created env.updated env.errors,
     { st with mailsSent := body :: st.mailsSent })

/-- `nightly_inventory_update` (tasks.py:327-342): the chained pipeline.  The
file-reading head of the chain is outside the store model, so the composed
entry point takes the Ingest stage's envelope as input and feeds it through the
Reconciler and Report stages in order. -/
def nightly_inventory_update (now : Int) (ingestResult : Envelope) (st : Store) : Envelope × Store :=
  let r1 := validate_and_update_inventory now ingestResult st
  generate_inventory_report now r1.1 r1.2

/-- A pandas DataFrame as produced by `pd.read_csv`: the header and the rows as
column-keyed cells. -/
structure DataFrame where
  cols : List String
  rows : List (List (String × PyVal))
deriving DecidableEq

/-- Cell access within a row (cells of absent columns read as NaN; the code
never exercises that default on a well-formed frame). -/
def getCell (r : List (String × PyVal)) (c : String) : PyVal :=
  match r.find? (fun kv => decide (kv.1 = c)) with
  | some kv => kv.2
  | Option.none => PyVal.nan

/-- Apply a cell transformation to one column of every row. -/
def dfMapCol (df : DataFrame) (c : String) (f : PyVal → PyVal) : DataFrame :=
  { df with rows := df.rows.map (fun r => r.map (fun kv => if kv.1 = c then (kv.1, f kv.2) else kv)) }

/-- `pd.to_numeric(col, errors='coerce')`: numbers pass through, numeric text
parses, anything else becomes NaN. -/
def toNumericCell : PyVal → PyVal
  | PyVal.int n => PyVal.int n
  | PyVal.str s =>
    match parseIntStr s with
    | some n => PyVal.int n
    | Option.none => PyVal.nan
  | _ => PyVal.nan

/-- The required columns of tasks.py:60. -/
def requiredColumns : List String := ["sku", "name", "price", "inventory_quantity"]

/-- `import_products_from_csv` (tasks.py:57-104) on an already-read frame:
check the required columns, coerce `price` and `inventory_quantity`, fill the
`description` column — reading `df['description']` raises `KeyError` when that
column is absent, which the generic handler turns into an error envelope —
drop rows with a missing required field, and return the survivors. -/
def import_products_from_csv (df : DataFrame) : Envelope :=
  let missing := requiredColumns.filter (fun c => decide (¬ df.cols.contains c))
  if missing ≠ [] then
    Envelope.mk "error" "Missing required columns" [] 0 0 []
  else if ¬ df.cols.contains "description" then
    Envelope.mk "error" "Error importing products: KeyError description" [] 0 0 []
  else
    let df1 := dfMapCol df "price" toNumericCell
    let df2 := dfMapCol df1 "inventory_quantity" toNumericCell
    let df3 := dfMapCol df2 "description"
      (fun v => match v with | PyVal.nan => PyVal.str "" | w => w)
    let valid := df3.rows.filter (fun r => requiredColumns.all (fun c => decide (getCell r c ≠ PyVal.nan)))
    let items := valid.map (fun r => Item.mk (getCell r "sku") (getCell r "name")
      (getCell r "price") (getCell r "inventory_quantity") (getCell r "description"))
    Envelope.mk "success" "Successfully read products from CSV" items 0 0 []

/-- HTTP-level outcome of the single-record entry points. -/
inductive Resp where
  | ok
  | badRequest (msg : String)
  | notFound
  | serverError
deriving DecidableEq

/-- `ProductViewSet.update_inventory` (views.py:66-109).  `get_object`
(views.py:60-64) swallows the `Http404` and yields no product; the view then
dereferences it while building the log entry, so a missing product surfaces as
an uncaught `AttributeError` (HTTP 500) rather than 404.  A no-change quantity
write fails on the NOT NULL `change` column inside the transaction (also 500,
rolled back). -/
def update_inventory (now : Int) (st : Store) (pk : Nat) (quantity : PyVal) (notes : String) :
    Resp × Store :=
  if quantity = PyVal.none then (Resp.badRequest "Quantity is required", st)
  else
    match pyToInt quantity with
    | Option.none => (Resp.badRequest "Invalid quantity", st)
    | some q =>
      if q < 0 then (Resp.badRequest "Quantity cannot be negative", st)
      else
        match st.products.find? (fun p => decide (p.id = pk)) with
        | Option.none => (Resp.serverError, st)
        | some p =>
          match productSave now st { p with qty := q } with
          | Option.none => (Resp.serverError, st)
          | some st1 =>
            match logSave now (LogDraft.mk p.id p.qty (PyVal.int q) Option.none "manual" notes) with
            | Option.none => (Resp.serverError, st)
            | some e => (Resp.ok, { st1 with logs := e :: st1.logs })

/-- The raw webhook payload: each field either absent or some scalar. -/
structure WebhookPayload where
  idv : Option PyVal
  skuv : Option PyVal
  qtyv : Option PyVal
deriving DecidableEq

/-- `WebhookInventoryUpdateSerializer` (serializers.py:44-58): `id` is a
required `CharField`, `inventory_quantity` a required `IntegerField` (with no
lower bound), `sku` an optional `CharField`.  The class-level `validate` which
would accept id-or-sku is unreachable because a missing `id` already fails
field validation. -/
def serializeWebhook (pl : WebhookPayload) : Option (String × Option String × Int) :=
  match pl.idv.bind charFieldToStr, pl.qtyv.bind pyToInt with
  | some idS, some q =>
    match pl.skuv with
    | Option.none => some (idS, Option.none, q)
    | some v =>
      match charFieldToStr v with
      | some s => some (idS, some s, q)
      | Option.none => Option.none
  | _, _ => Option.none

/-- Product resolution of the webhook (views.py:377-382): Shopify id first,
then SKU when no product matched the id. -/
def webhookLookup (st : Store) (idS : String) (skuOpt : Option String) : Option DBProduct :=
  match (if idS ≠ "" then st.products.find? (fun p => decide (p.shopifyId = some idS))
         else Option.none) with
  | some p => some p
  | Option.none =>
    match skuOpt with
    | some s =>
      if s ≠ "" then st.products.find? (fun p => decide (p.sku = PyVal.str s))
      else Option.none
    | Option.none => Option.none

/-- `ShopifyWebhookView.post` (views.py:355-411): validate the payload, resolve
the product, then atomically write quantity and log; any store failure inside
the transaction is caught by the generic handler (HTTP 500) and rolled back. -/
def shopify_webhook (now : Int) (st : Store) (pl : WebhookPayload) : Resp × Store :=
  match serializeWebhook pl with
  | Option.none => (Resp.badRequest "validation error", st)
  | some (idS, skuOpt, q) =>
    match webhookLookup st idS skuOpt with
    | Option.none => (Resp.notFound, st)
    | some p =>
      match productSave now st { p with qty := q } with
      | Option.none => (Resp.serverError, st)
      | some st1 =>
        match logSave now (LogDraft.mk p.id p.qty (PyVal.int q) Option.none "webhook"
            ("Shopify webhook update - " ++ toString now)) with
        | Option.none => (Resp.serverError, st)
        | some e => (Resp.ok, { st1 with logs := e :: st1.logs })

/-- The three audit-logged mutation paths, as one dispatchable call type. -/
inductive MutCall where
  | manual (pk : Nat) (quantity : PyVal) (notes : String)
  | webhook (pl : WebhookPayload)
  | batchRecord (it : Item)
deriving DecidableEq

/-- Run one mutation-path call against the store.  A batch record counts as
successful when its per-record processing recorded no error. -/
def runMutation (now : Int) (st : Store) : MutCall → Resp × Store
  | MutCall.manual pk q notes => update_inventory now st pk q notes
  | MutCall.webhook pl => shopify_webhook now st pl
  | MutCall.batchRecord it =>
    let r := processItem now (RecResult.mk st 0 0 []) it
    (if r.errors = [] then Resp.ok else Resp.serverError, r.store)

/-- The stored quantity of the product with primary key `pid`, if any. -/
def qtyOf (st : Store) (pid : Nat) : Option Int :=
  (st.products.find? (fun p => decide (p.id = pid))).map (fun p => p.qty)

/-- Database sanity of a store: primary keys are distinct and below the
fresh-key counter, and quantities respect the non-negativity constraint. -/
def StoreWF (st : Store) : Prop :=
  (st.products.map (fun p => p.id)).Nodup
  ∧ (∀ p ∈ st.products, p.id < st.nextId)
  ∧ (∀ p ∈ st.products, 0 ≤ p.qty)

instance (st : Store) : Decidable (StoreWF st) := by
  unfold StoreWF
  infer_instance

/-- Concrete rows used by the witnesses and counterexamples below.  `wP1` is a
persisted product shaped like the test fixture `SP1` (quantity 100, Shopify id
"12345"). -/
def wP1 : DBProduct :=
  DBProduct.mk 1 (PyVal.str "SP1") (PyVal.str "Shopify Product") (PyVal.int 19) 100
    (PyVal.str "desc") 50 60 40 (some "12345")

/-- A one-product store holding `wP1`. -/
def wStore : Store := Store.mk [wP1] [] 2 []

/-- `wP1` with only the price changed, as an in-memory instance to be saved. -/
def wP1r : DBProduct := { wP1 with price := PyVal.int 25 }

/-- The store after saving `wP1r` at time 77. -/
def wStoreSaved : Store :=
  Store.mk [{ wP1r with updatedAt := 77 }] [] 2 []

/-- A frame with exactly the four required columns and one fully valid row —
per the claim this source must yield a success envelope with that row. -/
def dfNoDesc : DataFrame :=
  DataFrame.mk ["sku", "name", "price", "inventory_quantity"]
    [[("sku", PyVal.str "SKU001"), ("name", PyVal.str "Widget"),
      ("price", PyVal.int 10), ("inventory_quantity", PyVal.int 5)]]

/-- The webhook payload with quantity −1 used by the C3 witness. -/
def plNeg : WebhookPayload :=
  WebhookPayload.mk (some (PyVal.str "12345")) Option.none (some (PyVal.int (-1)))

/-- The batch record matching `wP1`'s stored quantity used by the C10 witness. -/
def itSame : Item :=
  Item.mk (PyVal.str "SP1") (PyVal.str "Renamed") (PyVal.int 30) (PyVal.int 100)
    (PyVal.str "new text")

/-- `wP1` as refreshed by processing `itSame`: quantity and every timestamp are
unchanged, the three refreshable fields carry the incoming values. -/
def wP1Refreshed : DBProduct :=
  { wP1 with name := itSame.name, price := itSame.price, description := itSame.description }

/-- The audit invariant between a pre-state and a post-state: every observable
quantity change of a persisted product is accompanied by exactly one newly
prepended log entry whose `previous_quantity`/`new_quantity` are the quantities
immediately before/after. -/
def AuditOk (st st1 : Store) : Prop :=
  ∀ pid q0 q1, qtyOf st pid = some q0 → qtyOf st1 pid = some q1 → q0 ≠ q1 →
    ∃ e, st1.logs = e :: st.logs ∧ e.productId = pid
      ∧ e.previous_quantity = q0 ∧ e.new_quantity = q1

/-- The converse direction of the atomic unit: a log entry is never persisted
without the corresponding quantity write also being applied. -/
def LogsImplyWrite (st st1 : Store) : Prop :=
  st1.logs ≠ st.logs →
    ∃ e, st1.logs = e :: st.logs ∧ qtyOf st1 e.productId = some e.new_quantity

/-- The stored quantity of the product a SKU resolves to, if any — the only
store observation one reconciliation record's control flow depends on. -/
def skuView (st : Store) (v : PyVal) : Option Int :=
  (findBySku st v).map (fun p => p.qty)

theorem find?_map_pred (g : DBProduct → DBProduct) (q : DBProduct → Bool) :
    ∀ l : List DBProduct, (∀ x ∈ l, q (g x) = q x) →
      (l.map g).find? q = (l.find? q).map g := by
  intro l
  induction l with
  | nil => intro _; rfl
  | cons a t ih =>
    intro h
    have ha := h a (by simp)
    rw [List.map_cons, List.find?_cons, List.find?_cons, ha]
    cases hqa : q a with
    | true => rfl
    | false => exact ih (fun x hx => h x (by simp [hx]))

theorem find?_replaceById_self (ps : List DBProduct) (inst : DBProduct)
    (h : (ps.find? (fun p => decide (p.id = inst.id))).isSome) :
    (replaceById ps inst).find? (fun p => decide (p.id = inst.id)) = some inst := by
  induction ps with
  | nil => simp [List.find?] at h
  | cons a l ih =>
    by_cases ha : a.id = inst.id
    · have hstep : replaceById (a :: l) inst = inst :: replaceById l inst := by
        simp [replaceById, ha]
      rw [hstep]
      simp [List.find?_cons]
    · have hstep : replaceById (a :: l) inst = a :: replaceById l inst := by
        simp [replaceById, ha]
      rw [List.find?_cons] at h
      rw [decide_eq_false ha] at h
      rw [hstep, List.find?_cons, decide_eq_false ha]
      exact ih h

theorem find?_replaceById_ne (ps : List DBProduct) (inst : DBProduct) (pid : Nat)
    (h : pid ≠ inst.id) :
    (replaceById ps inst).find? (fun p => decide (p.id = pid))
      = ps.find? (fun p => decide (p.id = pid)) := by
  induction ps with
  | nil => rfl
  | cons a l ih =>
    by_cases ha : a.id = inst.id
    · have hstep : replaceById (a :: l) inst = inst :: replaceById l inst := by
        simp [replaceById, ha]
      have hinst : decide (inst.id = pid) = false := decide_eq_false (by omega)
      have haid : decide (a.id = pid) = false := decide_eq_false (by omega)
      rw [hstep, List.find?_cons, hinst, List.find?_cons, haid]
      exact ih
    · have hstep : replaceById (a :: l) inst = a :: replaceById l inst := by
        simp [replaceById, ha]
      rw [hstep, List.find?_cons, List.find?_cons]
      cases hqa : (decide (a.id = pid)) with
      | true => rfl
      | false => exact ih

theorem productSaveRow_qty (now : Int) (inst orig : DBProduct) :
    (productSaveRow now inst orig).qty = inst.qty := by
  unfold productSaveRow
  split <;> rfl

theorem productSaveRow_id (now : Int) (inst orig : DBProduct) :
    (productSaveRow now inst orig).id = inst.id := by
  unfold productSaveRow
  split <;> rfl

theorem productSaveRow_lastInv (now : Int) (inst orig : DBProduct) :
    (productSaveRow now inst orig).lastInvUpdate
      = if orig.qty = inst.qty then inst.lastInvUpdate else now := by
  unfold productSaveRow
  by_cases h : orig.qty = inst.qty
  · rw [if_neg (by omega), if_pos h]
  · rw [if_pos h, if_neg h]

theorem productSaveRow_updatedAt (now : Int) (inst orig : DBProduct) :
    (productSaveRow now inst orig).updatedAt = now := by
  unfold productSaveRow
  split <;> rfl

theorem productSave_neg (now : Int) (st : Store) (inst : DBProduct) (h : inst.qty < 0) :
    productSave now st inst = Option.none := by
  unfold productSave
  split
  · rfl
  · rw [if_pos (by rw [productSaveRow_qty]; omega)]

/-- Inversion of a committed `productSave`: the original row was found, the
written quantity is legal, and the post-state replaces the row by the computed
row image, touching nothing else. -/
theorem productSave_some_inv (now : Int) (st : Store) (inst : DBProduct) (st1 : Store)
    (h : productSave now st inst = some st1) :
    ∃ orig, st.products.find? (fun p => decide (p.id = inst.id)) = some orig
      ∧ 0 ≤ inst.qty
      ∧ st1 = Store.mk (replaceById st.products (productSaveRow now inst orig))
          st.logs st.nextId st.mailsSent := by
  unfold productSave at h
  split at h
  · cases h
  · rename_i orig horig
    split at h
    · cases h
    · rename_i hneg
      rw [Option.some_inj] at h
      refine ⟨orig, horig, ?_, h.symm⟩
      rw [productSaveRow_qty] at hneg
      omega

/-! ### C2: the `change` field of a persisted log entry -/

/-- C2 counterexample: at the explicit input where `previous_quantity` equals
`new_quantity` (both 5) and the caller pre-set `change` to 7,
`ProductInventoryLog.save` persists the caller's 7 instead of recomputing the
delta `new − previous = 0`, so the claim "the signed delta equals
new_quantity − previous_quantity ... also when previous_quantity equals
new_quantity and the caller pre-set `change`" is false on the code. -/
theorem c2_counterexample :
    logSave 0 (LogDraft.mk 1 5 (PyVal.int 5) (some 7) "manual" "")
      = some (LogEntry.mk 1 5 5 7 "manual" "" 0)
    ∧ (7 : Int) ≠ 5 - 5 := by
  constructor
  · rfl
  · decide

/-- C2 (amended): when a log entry is first persisted, `change` is recomputed
as `new_quantity − previous_quantity` — regardless of any caller-supplied
value — whenever `new_quantity` differs from `previous_quantity`; when the two
are equal, the caller-supplied `change` is persisted as given (and the save
fails when none was supplied). -/
theorem c2_change_recomputed (ts : Int) (d : LogDraft) (e : LogEntry)
    (h : logSave ts d = some e) :
    (d.new_quantity ≠ PyVal.int d.previous_quantity →
      e.change = e.new_quantity - e.previous_quantity)
    ∧ (d.new_quantity = PyVal.int d.previous_quantity → d.change = some e.change) := by
  unfold logSave at h
  split at h
  · rename_i n c heq hch
    split at h
    · cases h
    · rename_i hneg
      rw [Option.some_inj] at h
      subst h
      unfold logComputedChange at hch
      by_cases heqp : d.new_quantity = PyVal.int d.previous_quantity
      · rw [if_pos heqp] at hch
        constructor
        · intro hne
          exact absurd heqp hne
        · intro _
          rw [hch]
      · rw [if_neg heqp] at hch
        constructor
        · intro _
          split at hch
          · rename_i n2 heq2
            rw [Option.some_inj] at hch
            rw [heq] at heq2
            injection heq2 with hnn
            show c = n - d.previous_quantity
            omega
          · cases hch
        · intro hcontra
          exact absurd hcontra heqp
  · cases h

/-- C2 witness: the amended statement holds concretely for a first persist with
previous 3, new 8 and a bogus caller-supplied `change` of 42: the stored delta
is 5. -/
theorem c2_witness :
    logSave 0 (LogDraft.mk 1 3 (PyVal.int 8) (some 42) "manual" "")
      = some (LogEntry.mk 1 3 8 5 "manual" "" 0)
    ∧ ((PyVal.int 8 ≠ PyVal.int 3 →
        (5 : Int) = 8 - 3)
      ∧ (PyVal.int 8 = PyVal.int 3 → (some 42 : Option Int) = some 5)) := by
  refine ⟨by rfl, ?_⟩
  have h := c2_change_recomputed 0 (LogDraft.mk 1 3 (PyVal.int 8) (some 42) "manual" "")
    (LogEntry.mk 1 3 8 5 "manual" "" 0) (by rfl)
  exact h

/-! ### C4: `last_inventory_update` semantics of `Product.save` -/

/-- C4: for every save of an already-persisted product (the original row
`orig` exists and the write commits), the stored `last_inventory_update`
becomes the current time iff the quantity being written differs from the
previously stored quantity, and otherwise keeps the instance's loaded value —
so a write changing only price/name/description (same quantity, loaded
timestamp) leaves it unchanged; `updated_at` is always stamped (`auto_now`). -/
theorem c4_last_inventory_update (now : Int) (st st1 : Store) (inst orig : DBProduct)
    (horig : st.products.find? (fun p => decide (p.id = inst.id)) = some orig)
    (hsave : productSave now st inst = some st1) :
    (st1.products.find? (fun p => decide (p.id = inst.id))).map (fun p => p.lastInvUpdate)
      = some (if orig.qty = inst.qty then inst.lastInvUpdate else now)
    ∧ (st1.products.find? (fun p => decide (p.id = inst.id))).map (fun p => p.updatedAt)
      = some now := by
  obtain ⟨orig2, horig2, hq, hst⟩ := productSave_some_inv now st inst st1 hsave
  have horig3 : orig2 = orig := by
    rw [horig] at horig2
    exact (Option.some_inj.mp horig2).symm
  rw [horig3] at hst
  subst hst
  have hfind : (replaceById st.products (productSaveRow now inst orig)).find?
      (fun p => decide (p.id = inst.id)) = some (productSaveRow now inst orig) := by
    have hid := productSaveRow_id now inst orig
    have hpredeq : (fun p : DBProduct => decide (p.id = inst.id))
        = (fun p : DBProduct => decide (p.id = (productSaveRow now inst orig).id)) := by
      rw [hid]
    rw [hpredeq]
    exact find?_replaceById_self st.products (productSaveRow now inst orig)
      (by rw [hid, horig]; rfl)
  show ((replaceById st.products (productSaveRow now inst orig)).find?
      (fun p => decide (p.id = inst.id))).map (fun p => p.lastInvUpdate)
      = some (if orig.qty = inst.qty then inst.lastInvUpdate else now)
    ∧ ((replaceById st.products (productSaveRow now inst orig)).find?
      (fun p => decide (p.id = inst.id))).map (fun p => p.updatedAt) = some now
  rw [hfind]
  constructor
  · show some ((productSaveRow now inst orig).lastInvUpdate)
      = some (if orig.qty = inst.qty then inst.lastInvUpdate else now)
    rw [productSaveRow_lastInv]
  · show some ((productSaveRow now inst orig).updatedAt) = some now
    rw [productSaveRow_updatedAt]

/-- C4 witness: saving `wP1` with only the price changed (quantity still 100,
loaded `last_inventory_update` 50) keeps `last_inventory_update` at 50 while
`updated_at` is stamped to the save time 77. -/
theorem c4_witness :
    (Store.mk [wP1] [] 2 []).products.find? (fun p => decide (p.id = wP1r.id)) = some wP1
    ∧ productSave 77 (Store.mk [wP1] [] 2 []) wP1r = some wStoreSaved
    ∧ ((wStoreSaved.products.find? (fun p => decide (p.id = wP1r.id))).map
          (fun p => p.lastInvUpdate)
        = some (if wP1.qty = wP1r.qty then wP1r.lastInvUpdate else 77)
      ∧ (wStoreSaved.products.find? (fun p => decide (p.id = wP1r.id))).map
          (fun p => p.updatedAt) = some 77) := by
  refine ⟨by decide, by decide, ?_⟩
  exact c4_last_inventory_update 77 (Store.mk [wP1] [] 2 []) wStoreSaved wP1r wP1
    (by decide) (by decide)

/-! ### C5: webhook payload identifier resolution -/

/-- C5: the code contradicts the claim (and the serializer's own `validate`
docstring) at the explicit input of a payload carrying only a SKU: because
`id` is a required serializer field, the SKU-only payload
`(sku := "SP1", inventory_quantity := 50)` is rejected as a validation error
instead of being accepted and resolved by SKU, even though the store holds a
product with that SKU. -/
theorem c5_sku_only_payload_rejected :
    shopify_webhook 7 wStore
        (WebhookPayload.mk Option.none (some (PyVal.str "SP1")) (some (PyVal.int 50)))
      = (Resp.badRequest "validation error", wStore)
    ∧ findBySku wStore (PyVal.str "SP1") = some wP1 := by
  constructor
  · rfl
  · decide

/-! ### C6: manual update with an unknown primary key -/

/-- C6: the code contradicts the claim at the explicit input pk = 999 (no such
product) with valid quantity 5: `get_object` swallows the `Http404` and
returns no product, the view then dereferences it building the log entry, so
the call ends in an uncaught `AttributeError` (HTTP 500) — not the claimed
`NotFound`.  No mutation and no log entry happen, but the failure mode is a
server error. -/
theorem c6_missing_pk_server_error :
    update_inventory 7 wStore 999 (PyVal.int 5) "" = (Resp.serverError, wStore)
    ∧ (wStore.products.find? (fun p => decide (p.id = 999))) = Option.none
    ∧ Resp.serverError ≠ Resp.notFound := by
  refine ⟨by rfl, by decide, by decide⟩

/-! ### C7: ingest with the description column absent -/

/-- C7: the code contradicts the claim at the explicit input `dfNoDesc`: all
four required columns are present and the single row is valid, yet
`import_products_from_csv` returns an error envelope, because
`df['description'].fillna('')` raises `KeyError` when the optional
`description` column is absent and the generic handler converts it to a
failure. -/
theorem c7_missing_description_column_fails :
    import_products_from_csv dfNoDesc
      = Envelope.mk "error" "Error importing products: KeyError description" [] 0 0 []
    ∧ (Envelope.mk "error" "Error importing products: KeyError description" [] 0 0 []).status
        ≠ "success" := by
  refine ⟨by rfl, by decide⟩

/-! ### C8: fail-fast propagation of a failure envelope -/

/-- C8: whenever the Ingest stage hands over a non-success envelope, the
Reconciler stage returns it unchanged without touching the store, the Report
stage returns it unchanged without touching the store (in particular no
notification is appended to the outbox), and the composed nightly pipeline
returns exactly the Ingest failure envelope — message included — with the
store untouched. -/
theorem c8_fail_fast (now : Int) (env : Envelope) (st : Store)
    (h : env.status ≠ "success") :
    validate_and_update_inventory now env st = (env, st)
    ∧ generate_inventory_report now env st = (env, st)
    ∧ nightly_inventory_update now env st = (env, st) := by
  have h1 : validate_and_update_inventory now env st = (env, st) := by
    unfold validate_and_update_inventory
    rw [if_pos h]
  have h2 : generate_inventory_report now env st = (env, st) := by
    unfold generate_inventory_report
    rw [if_pos h]
  refine ⟨h1, h2, ?_⟩
  unfold nightly_inventory_update
  rw [h1]
  exact h2

/-- C8 witness: the concrete source-unavailable envelope of tasks.py:55 is
propagated unchanged through both downstream stages and the composed
pipeline, leaving the store (products, logs, outbox) untouched. -/
theorem c8_witness :
    (Envelope.mk "error" "CSV file not found" [] 0 0 []).status ≠ "success"
    ∧ (validate_and_update_inventory 9 (Envelope.mk "error" "CSV file not found" [] 0 0 []) wStore
        = (Envelope.mk "error" "CSV file not found" [] 0 0 [], wStore)
      ∧ generate_inventory_report 9 (Envelope.mk "error" "CSV file not found" [] 0 0 []) wStore
        = (Envelope.mk "error" "CSV file not found" [] 0 0 [], wStore)
      ∧ nightly_inventory_update 9 (Envelope.mk "error" "CSV file not found" [] 0 0 []) wStore
        = (Envelope.mk "error" "CSV file not found" [] 0 0 [], wStore)) :=
  ⟨by decide, c8_fail_fast 9 (Envelope.mk "error" "CSV file not found" [] 0 0 []) wStore (by decide)⟩

/-! ### C3: negative-quantity handling on the two single-record entry points -/

/-- C3 counterexample: at the explicit input of a valid webhook payload for the
stored product (Shopify id "12345") with `inventory_quantity = -1`, the
webhook does not return a validation error: the payload passes serializer
validation (no lower bound on the integer field), the quantity write then
violates the store's non-negativity constraint inside the transaction, and the
generic handler reports a server error (HTTP 500).  The claim that both entry
points reject `-1` as invalid input with a validation error is therefore false
on the code. -/
theorem c3_counterexample :
    shopify_webhook 7 wStore
        (WebhookPayload.mk (some (PyVal.str "12345")) Option.none (some (PyVal.int (-1))))
      = (Resp.serverError, wStore)
    ∧ (∀ msg : String, Resp.serverError ≠ Resp.badRequest msg) := by
  refine ⟨by rfl, ?_⟩
  intro msg h
  cases h

/-- C3 (amended): the manual entry point rejects any negative quantity before
any write with a validation error and an unchanged store; the webhook entry
point does not validate the sign — a negative quantity passes validation and
the attempted atomic write fails the store's non-negativity constraint — but
still never commits anything: the store is unchanged and the call never
succeeds. -/
theorem c3_negative_quantity (now : Int) (st : Store) (pk : Nat) (notes : String)
    (pl : WebhookPayload) (n m : Int) (hn : n < 0)
    (hm : pl.qtyv.bind pyToInt = some m) (hmneg : m < 0) :
    update_inventory now st pk (PyVal.int n) notes
      = (Resp.badRequest "Quantity cannot be negative", st)
    ∧ (shopify_webhook now st pl).2 = st
    ∧ (shopify_webhook now st pl).1 ≠ Resp.ok := by
  refine ⟨?_, ?_⟩
  · simp [update_inventory, pyToInt, hn]
  · unfold shopify_webhook
    cases hid : pl.idv.bind charFieldToStr with
    | none =>
      simp [serializeWebhook, hid]
    | some idS =>
      cases hsku : pl.skuv with
      | none =>
        simp only [serializeWebhook, hid, hm, hsku]
        cases hlk : webhookLookup st idS Option.none with
        | none => simp
        | some p =>
          have hps : productSave now st { p with qty := m } = Option.none :=
            productSave_neg now st { p with qty := m } (by simpa using hmneg)
          simp [hps]
      | some v =>
        cases hcs : charFieldToStr v with
        | none => simp [serializeWebhook, hid, hm, hsku, hcs]
        | some s =>
          simp only [serializeWebhook, hid, hm, hsku, hcs]
          cases hlk : webhookLookup st idS (some s) with
          | none => simp
          | some p =>
            have hps : productSave now st { p with qty := m } = Option.none :=
              productSave_neg now st { p with qty := m } (by simpa using hmneg)
            simp [hps]

/-- C3 witness: the amended statement holds concretely for quantity −1 against
the one-product store: the manual path answers 400 with nothing written, and
the webhook path leaves the store unchanged and does not succeed. -/
theorem c3_witness :
    ((-1 : Int) < 0 ∧ plNeg.qtyv.bind pyToInt = some (-1))
    ∧ (update_inventory 7 wStore 1 (PyVal.int (-1)) ""
        = (Resp.badRequest "Quantity cannot be negative", wStore)
      ∧ (shopify_webhook 7 wStore plNeg).2 = wStore
      ∧ (shopify_webhook 7 wStore plNeg).1 ≠ Resp.ok) :=
  ⟨⟨by decide, by rfl⟩, c3_negative_quantity 7 wStore 1 "" plNeg (-1) (-1)
    (by decide) (by rfl) (by decide)⟩

/-! ### C10: equal-quantity reconciliation record is a field-only refresh -/

theorem nodup_find_by_id (ps : List DBProduct)
    (hwf : (ps.map (fun q => q.id)).Nodup) (p : DBProduct) (hp : p ∈ ps) :
    ps.find? (fun x => decide (x.id = p.id)) = some p := by
  induction ps with
  | nil => cases hp
  | cons a l ih =>
    rcases List.mem_cons.mp hp with rfl | hpl
    · rw [List.find?_cons, decide_eq_true rfl]
    · have hid : a.id ≠ p.id := by
        intro hcontra
        have : p.id ∈ l.map (fun q => q.id) := List.mem_map_of_mem _ hpl
        rw [List.map_cons, List.nodup_cons] at hwf
        exact hwf.1 (hcontra ▸ this)
      rw [List.find?_cons, decide_eq_false hid]
      exact ih (by rw [List.map_cons, List.nodup_cons] at hwf; exact hwf.2) hpl

theorem find?_qsUpdateFields (st : Store) (pid0 : Nat) (nm pr ds : PyVal) (pid : Nat) :
    (qsUpdateFields st pid0 nm pr ds).products.find? (fun p => decide (p.id = pid))
      = (st.products.find? (fun p => decide (p.id = pid))).map
          (fun q => if q.id = pid0 then { q with name := nm, price := pr, description := ds }
            else q) := by
  unfold qsUpdateFields
  exact find?_map_pred _ _ st.products (by intro x hx; by_cases h : x.id = pid0 <;> simp [h])

/-- C10: for an existing product whose incoming batch quantity equals its
stored quantity, the reconciliation record creates no inventory log entry and
leaves `inventory_quantity`, `last_inventory_update` and `updated_at` all
unchanged, while overwriting `name`, `price` and `description` with the
incoming values via the direct queryset update (no save-hook timestamps), and
counts the record as updated. -/
theorem c10_equal_quantity_frame (now : Int) (st : Store) (it : Item) (p : DBProduct)
    (c u : Nat) (errs : List String)
    (hwf : (st.products.map (fun q => q.id)).Nodup)
    (hsku : truthyV it.sku = true) (hname : truthyV it.name = true)
    (hprice : it.price ≠ PyVal.none)
    (hfind : findBySku st it.sku = some p)
    (heq : it.inventory_quantity = PyVal.int p.qty) :
    (processItem now (RecResult.mk st c u errs) it).store.logs = st.logs
    ∧ (processItem now (RecResult.mk st c u errs) it).created = c
    ∧ (processItem now (RecResult.mk st c u errs) it).updated = u + 1
    ∧ (processItem now (RecResult.mk st c u errs) it).errors = errs
    ∧ (processItem now (RecResult.mk st c u errs) it).store.products.find?
        (fun q => decide (q.id = p.id))
      = some { p with name := it.name, price := it.price, description := it.description } := by
  have hcond : ¬ (truthyV it.sku = false ∨ truthyV it.name = false ∨ it.price = PyVal.none) := by
    simp [hsku, hname, hprice]
  have hred : processItem now (RecResult.mk st c u errs) it
      = RecResult.mk (qsUpdateFields st p.id it.name it.price it.description) c (u + 1) errs := by
    unfold processItem
    rw [if_neg hcond]
    simp only [RecResult.store]
    rw [hfind]
    simp [heq]
  rw [hred]
  refine ⟨rfl, rfl, rfl, rfl, ?_⟩
  rw [find?_qsUpdateFields,
    nodup_find_by_id st.products hwf p (List.mem_of_find?_eq_some hfind)]
  simp

/-- C10 witness: processing `itSame` (quantity 100, equal to `wP1`'s stored
quantity) against the one-product store leaves logs, counters and the
quantity/timestamp fields untouched while refreshing name, price and
description. -/
theorem c10_witness :
    ((wStore.products.map (fun q => q.id)).Nodup
    ∧ truthyV itSame.sku = true ∧ truthyV itSame.name = true
    ∧ itSame.price ≠ PyVal.none
    ∧ findBySku wStore itSame.sku = some wP1
    ∧ itSame.inventory_quantity = PyVal.int wP1.qty)
    ∧ ((processItem 9 (RecResult.mk wStore 0 0 []) itSame).store.logs = wStore.logs
      ∧ (processItem 9 (RecResult.mk wStore 0 0 []) itSame).created = 0
      ∧ (processItem 9 (RecResult.mk wStore 0 0 []) itSame).updated = 0 + 1
      ∧ (processItem 9 (RecResult.mk wStore 0 0 []) itSame).errors = []
      ∧ (processItem 9 (RecResult.mk wStore 0 0 []) itSame).store.products.find?
          (fun q => decide (q.id = wP1.id))
        = some wP1Refreshed) :=
  ⟨⟨by decide, by decide, by decide, by decide, by decide, by decide⟩,
   c10_equal_quantity_frame 9 wStore itSame wP1 0 0 []
    (by decide) (by decide) (by decide) (by decide) (by decide) (by decide)⟩

/-! ### C1 infrastructure: audit-invariant predicates and commit shapes -/

theorem auditOk_refl (st : Store) : AuditOk st st := by
  intro pid q0 q1 h0 h1 hne
  rw [h0] at h1
  cases h1
  exact absurd rfl hne

theorem logsImplyWrite_refl (st : Store) : LogsImplyWrite st st := by
  intro h
  exact absurd rfl h

theorem logSave_same_none (ts : Int) (pid : Nat) (prev : Int) (ct nt : String) :
    logSave ts (LogDraft.mk pid prev (PyVal.int prev) Option.none ct nt) = Option.none := by
  unfold logSave logComputedChange
  rw [if_pos (by rfl)]

theorem qtyOf_qsUpdateFields (st : Store) (pid0 : Nat) (nm pr ds : PyVal) (pid : Nat) :
    qtyOf (qsUpdateFields st pid0 nm pr ds) pid = qtyOf st pid := by
  unfold qtyOf
  rw [find?_qsUpdateFields]
  cases h : st.products.find? (fun p => decide (p.id = pid)) with
  | none => rfl
  | some q => by_cases hq : q.id = pid0 <;> simp [hq]

theorem qtyOf_replace_ne (st : Store) (inst : DBProduct) (ps2 : List DBProduct)
    (hps : ps2 = replaceById st.products inst) (lg : List LogEntry) (nid : Nat)
    (ml : List String) (pid : Nat) (h : pid ≠ inst.id) :
    qtyOf (Store.mk ps2 lg nid ml) pid = qtyOf st pid := by
  unfold qtyOf
  rw [hps, find?_replaceById_ne st.products inst pid h]

theorem find?_id_none_of_fresh (st : Store) (hwf : StoreWF st) :
    st.products.find? (fun x => decide (x.id = st.nextId)) = Option.none := by
  rw [List.find?_eq_none]
  intro x hx
  have := hwf.2.1 x hx
  simp
  omega

/-- Inversion of a committed `logSave`: the persisted entry snapshots the
draft's product and previous quantity, its new quantity is the drafted one and
both quantities are legal; with no caller-supplied delta, success further
requires an actual change. -/
theorem logSave_some_inv (ts : Int) (d : LogDraft) (e : LogEntry)
    (h : logSave ts d = some e) :
    e.productId = d.productId ∧ e.previous_quantity = d.previous_quantity
    ∧ d.new_quantity = PyVal.int e.new_quantity
    ∧ 0 ≤ e.new_quantity ∧ 0 ≤ e.previous_quantity ∧ e.timestamp = ts
    ∧ (d.change = Option.none → e.new_quantity ≠ e.previous_quantity) := by
  unfold logSave at h
  split at h
  · rename_i n c heq hch
    split at h
    · cases h
    · rename_i hneg
      push_neg at hneg
      rw [Option.some_inj] at h
      subst h
      refine ⟨rfl, rfl, heq, ?_, ?_, rfl, ?_⟩
      · show (0:Int) ≤ n
        omega
      · show (0:Int) ≤ d.previous_quantity
        omega
      · intro hchn hcontra
        unfold logComputedChange at hch
        rw [hchn] at hch
        rw [if_pos (by rw [heq]; exact congrArg PyVal.int hcontra)] at hch
        cases hch
  · cases h

/-- Audit conclusions when the post-state differs only in non-quantity data:
no product quantity moved and no log entry was added. -/
theorem audit_of_frame (st st2 : Store)
    (hlogs : st2.logs = st.logs)
    (hq : ∀ pid, qtyOf st2 pid = qtyOf st pid) :
    AuditOk st st2 ∧ LogsImplyWrite st st2 := by
  constructor
  · intro pid q0 q1 h0 h1 hne2
    rw [hq pid, h0] at h1
    rw [Option.some_inj] at h1
    exact absurd h1 hne2
  · intro hne
    exact absurd hlogs hne

/-- Audit conclusions for a committed creation: the only touched id had no row
before, now carries the logged new quantity, and exactly the one entry was
prepended. -/
theorem audit_of_create (st st2 : Store) (e : LogEntry)
    (hlogs : st2.logs = e :: st.logs)
    (hnew : qtyOf st e.productId = Option.none)
    (hq2 : qtyOf st2 e.productId = some e.new_quantity)
    (hframe : ∀ pid, pid ≠ e.productId → qtyOf st2 pid = qtyOf st pid) :
    AuditOk st st2 ∧ LogsImplyWrite st st2 := by
  constructor
  · intro pid q0 q1 h0 h1 hne2
    by_cases hp : pid = e.productId
    · subst hp
      rw [hnew] at h0
      cases h0
    · rw [hframe pid hp, h0] at h1
      rw [Option.some_inj] at h1
      exact absurd h1 hne2
  · intro _
    exact ⟨e, hlogs, hq2⟩

/-- Audit conclusions for a committed single-product quantity update. -/
theorem audit_of_shape (st st2 : Store) (p : DBProduct) (e : LogEntry)
    (hlogs : st2.logs = e :: st.logs)
    (hpid : e.productId = p.id)
    (hprev : e.previous_quantity = p.qty)
    (hq0 : qtyOf st p.id = some p.qty)
    (hq2 : qtyOf st2 p.id = some e.new_quantity)
    (hframe : ∀ pid, pid ≠ p.id → qtyOf st2 pid = qtyOf st pid) :
    AuditOk st st2 ∧ LogsImplyWrite st st2 := by
  constructor
  · intro pid q0 q1 h0 h1 hne2
    by_cases hp : pid = p.id
    · subst hp
      rw [hq0] at h0
      rw [Option.some_inj] at h0
      rw [hq2] at h1
      rw [Option.some_inj] at h1
      refine ⟨e, hlogs, hpid, ?_, ?_⟩
      · rw [hprev, h0]
      · rw [h1]
    · rw [hframe pid hp, h0] at h1
      rw [Option.some_inj] at h1
      exact absurd h1 hne2
  · intro _
    refine ⟨e, hlogs, ?_⟩
    rw [hpid]
    exact hq2

theorem qtyOf_store_replace_self (st : Store) (row : DBProduct) (lg : List LogEntry)
    (nid : Nat) (ml : List String)
    (h : (st.products.find? (fun x => decide (x.id = row.id))).isSome) :
    qtyOf (Store.mk (replaceById st.products row) lg nid ml) row.id = some row.qty := by
  unfold qtyOf
  rw [show (Store.mk (replaceById st.products row) lg nid ml).products
      = replaceById st.products row from rfl]
  rw [find?_replaceById_self st.products row h]
  rfl

theorem qtyOf_store_replace_ne (st : Store) (row : DBProduct) (lg : List LogEntry)
    (nid : Nat) (ml : List String) (pid : Nat) (h : pid ≠ row.id) :
    qtyOf (Store.mk (replaceById st.products row) lg nid ml) pid = qtyOf st pid := by
  unfold qtyOf
  rw [show (Store.mk (replaceById st.products row) lg nid ml).products
      = replaceById st.products row from rfl]
  rw [find?_replaceById_ne st.products row pid h]

theorem qtyOf_cons_self (newp : DBProduct) (ps : List DBProduct) (lg : List LogEntry)
    (nid : Nat) (ml : List String) :
    qtyOf (Store.mk (newp :: ps) lg nid ml) newp.id = some newp.qty := by
  unfold qtyOf
  rw [show (Store.mk (newp :: ps) lg nid ml).products = newp :: ps from rfl]
  rw [List.find?_cons, decide_eq_true rfl]
  rfl

theorem qtyOf_cons_ne (newp : DBProduct) (ps : List DBProduct) (lg : List LogEntry)
    (nid : Nat) (ml : List String) (lg2 : List LogEntry) (nid2 : Nat) (ml2 : List String)
    (pid : Nat) (h : newp.id ≠ pid) :
    qtyOf (Store.mk (newp :: ps) lg nid ml) pid = qtyOf (Store.mk ps lg2 nid2 ml2) pid := by
  unfold qtyOf
  rw [show (Store.mk (newp :: ps) lg nid ml).products = newp :: ps from rfl]
  rw [show (Store.mk ps lg2 nid2 ml2).products = ps from rfl]
  rw [List.find?_cons, decide_eq_false h]

theorem qtyOf_of_mem (st : Store) (hwf : (st.products.map (fun q => q.id)).Nodup)
    (p : DBProduct) (hmem : p ∈ st.products) : qtyOf st p.id = some p.qty := by
  unfold qtyOf
  rw [nodup_find_by_id st.products hwf p hmem]
  rfl

theorem webhookLookup_mem (st : Store) (idS : String) (skuOpt : Option String)
    (p : DBProduct) (h : webhookLookup st idS skuOpt = some p) : p ∈ st.products := by
  unfold webhookLookup at h
  split at h
  · rename_i p2 hbyId
    rw [Option.some_inj] at h
    subst h
    split at hbyId
    · exact List.mem_of_find?_eq_some hbyId
    · cases hbyId
  · split at h
    · rename_i s
      split at h
      · exact List.mem_of_find?_eq_some h
      · cases h
    · cases h

/-- Inversion of a committed creation branch of one reconciliation record. -/
theorem recCreate_some_inv (now : Int) (st : Store) (it : Item) (st1 : Store)
    (h : recCreate now st it = some st1) :
    ∃ n e, it.inventory_quantity = PyVal.int n ∧ ¬ n < 0
      ∧ logSave now (LogDraft.mk st.nextId 0 (PyVal.int n) Option.none "import" "Initial import")
          = some e
      ∧ st1 = Store.mk
          (DBProduct.mk st.nextId it.sku it.name it.price n it.description now now now Option.none
            :: st.products)
          (e :: st.logs) (st.nextId + 1) st.mailsSent := by
  unfold recCreate at h
  split at h
  · rename_i n heq
    split at h
    · cases h
    · rename_i hneg
      split at h
      · rename_i e hls
        rw [Option.some_inj] at h
        exact ⟨n, e, heq, hneg, hls, h.symm⟩
      · cases h
  · cases h

/-- Inversion of a committed changed-quantity branch of one reconciliation
record. -/
theorem recUpdateChanged_some_inv (now : Int) (st : Store) (p : DBProduct) (it : Item)
    (st1 : Store) (h : recUpdateChanged now st p it = some st1) :
    ∃ e stp,
      logSave now (LogDraft.mk p.id p.qty it.inventory_quantity Option.none "import"
        "CSV import update") = some e
      ∧ productSave now st { p with qty := e.new_quantity } = some stp
      ∧ st1 = Store.mk stp.products (e :: stp.logs) stp.nextId stp.mailsSent := by
  unfold recUpdateChanged at h
  split at h
  · rename_i e hls
    split at h
    · rename_i stp hps
      rw [Option.some_inj] at h
      exact ⟨e, stp, hls, hps, h.symm⟩
    · cases h
  · cases h

/-- Audit conclusions for any caller that commits, inside one atomic unit, a
`productSave` of product `p` at quantity `n` together with one prepended log
entry drafted from `p`'s pre-state (possibly followed by quantity-preserving
field updates). -/
theorem audit_commit_update (now : Int) (st : Store) (p : DBProduct) (n : Int)
    (ct nt : String) (stp : Store) (e : LogEntry) (st2 : Store)
    (hwf : StoreWF st) (hmem : p ∈ st.products)
    (hps : productSave now st { p with qty := n } = some stp)
    (hls : logSave now (LogDraft.mk p.id p.qty (PyVal.int n) Option.none ct nt) = some e)
    (hlogs2 : st2.logs = e :: stp.logs)
    (hqpres : ∀ pid, qtyOf st2 pid = qtyOf stp pid) :
    AuditOk st st2 ∧ LogsImplyWrite st st2 := by
  obtain ⟨orig, horig, hqi, hstp⟩ := productSave_some_inv now st _ stp hps
  obtain ⟨he1, he2, he3, he4, he5, he6, he7⟩ := logSave_some_inv now _ e hls
  have he1p : e.productId = p.id := he1
  have he2p : e.previous_quantity = p.qty := he2
  have he3p : PyVal.int n = PyVal.int e.new_quantity := he3
  have hn_e : n = e.new_quantity := by injection he3p
  have hfp : st.products.find? (fun x => decide (x.id = p.id)) = some p :=
    nodup_find_by_id st.products hwf.1 p hmem
  have horig2 : st.products.find? (fun x => decide (x.id = p.id)) = some orig := horig
  have horigp : orig = p := Option.some_inj.mp (horig2.symm.trans hfp)
  rw [horigp] at hstp
  have hrowid : (productSaveRow now { p with qty := n } p).id = p.id :=
    productSaveRow_id now { p with qty := n } p
  have hrowqty : (productSaveRow now { p with qty := n } p).qty = n :=
    productSaveRow_qty now { p with qty := n } p
  have hsome : (st.products.find?
      (fun x => decide (x.id = (productSaveRow now { p with qty := n } p).id))).isSome := by
    have hpred : (fun x : DBProduct =>
        decide (x.id = (productSaveRow now { p with qty := n } p).id))
        = (fun x : DBProduct => decide (x.id = p.id)) := by rw [hrowid]
    rw [hpred, hfp]
    rfl
  have hlogsp : stp.logs = st.logs := by rw [hstp]
  refine audit_of_shape st st2 p e ?_ he1p he2p ?_ ?_ ?_
  · rw [hlogs2, hlogsp]
  · exact qtyOf_of_mem st hwf.1 p hmem
  · have hq1 : qtyOf stp (productSaveRow now { p with qty := n } p).id
        = some (productSaveRow now { p with qty := n } p).qty := by
      rw [hstp]
      exact qtyOf_store_replace_self st _ st.logs st.nextId st.mailsSent hsome
    rw [hrowid, hrowqty] at hq1
    rw [hqpres p.id, hq1]
    exact congrArg some hn_e
  · intro pid hne
    rw [hqpres pid, hstp]
    exact qtyOf_store_replace_ne st _ st.logs st.nextId st.mailsSent pid
      (by rw [hrowid]; exact hne)

theorem qtyOf_fresh (st : Store) (hwf : StoreWF st) : qtyOf st st.nextId = Option.none := by
  unfold qtyOf
  rw [find?_id_none_of_fresh st hwf]
  rfl

/-- The manual entry point preserves the audit invariant: whatever the
outcome, quantity changes and log insertions are paired atomically. -/
theorem manual_audit (now : Int) (st : Store) (pk : Nat) (q : PyVal) (notes : String)
    (hwf : StoreWF st) :
    AuditOk st (update_inventory now st pk q notes).2
    ∧ LogsImplyWrite st (update_inventory now st pk q notes).2 := by
  unfold update_inventory
  split
  · exact audit_of_frame st st rfl (fun _ => rfl)
  · split
    · exact audit_of_frame st st rfl (fun _ => rfl)
    · rename_i n hq1
      split
      · exact audit_of_frame st st rfl (fun _ => rfl)
      · split
        · exact audit_of_frame st st rfl (fun _ => rfl)
        · rename_i p hp
          split
          · exact audit_of_frame st st rfl (fun _ => rfl)
          · rename_i st1 hps
            split
            · exact audit_of_frame st st rfl (fun _ => rfl)
            · rename_i e hls
              exact audit_commit_update now st p n "manual" notes st1 e _
                hwf (List.mem_of_find?_eq_some hp) hps hls rfl (fun _ => rfl)

/-- The webhook entry point preserves the audit invariant. -/
theorem webhook_audit (now : Int) (st : Store) (pl : WebhookPayload) (hwf : StoreWF st) :
    AuditOk st (shopify_webhook now st pl).2
    ∧ LogsImplyWrite st (shopify_webhook now st pl).2 := by
  unfold shopify_webhook
  split
  · exact audit_of_frame st st rfl (fun _ => rfl)
  · rename_i idS skuOpt q hser
    split
    · exact audit_of_frame st st rfl (fun _ => rfl)
    · rename_i p hlk
      split
      · exact audit_of_frame st st rfl (fun _ => rfl)
      · rename_i st1 hps
        split
        · exact audit_of_frame st st rfl (fun _ => rfl)
        · rename_i e hls
          exact audit_commit_update now st p q "webhook"
            ("Shopify webhook update - " ++ toString now) st1 e _
            hwf (webhookLookup_mem st idS skuOpt p hlk) hps hls rfl (fun _ => rfl)

/-- One reconciliation record preserves the audit invariant. -/
theorem batch_audit (now : Int) (st : Store) (it : Item) (c u : Nat)
    (errs : List String) (hwf : StoreWF st) :
    AuditOk st (processItem now (RecResult.mk st c u errs) it).store
    ∧ LogsImplyWrite st (processItem now (RecResult.mk st c u errs) it).store := by
  unfold processItem
  split
  · exact audit_of_frame st st rfl (fun _ => rfl)
  · split
    · split
      · rename_i st1 hcr
        obtain ⟨n, e, hqe, hneg, hls, hst1⟩ := recCreate_some_inv now st it st1 hcr
        obtain ⟨he1, he2, he3, he4, he5, he6, he7⟩ := logSave_some_inv now _ e hls
        have he1p : e.productId = st.nextId := he1
        have he3p : PyVal.int n = PyVal.int e.new_quantity := he3
        have hn_e : n = e.new_quantity := by injection he3p
        refine audit_of_create st st1 e ?_ ?_ ?_ ?_
        · rw [hst1]
        · rw [he1p]
          exact qtyOf_fresh st hwf
        · rw [hst1, he1p, ← hn_e]
          exact qtyOf_cons_self
            (DBProduct.mk st.nextId it.sku it.name it.price n it.description now now now
              Option.none)
            st.products (e :: st.logs) (st.nextId + 1) st.mailsSent
        · intro pid hne
          rw [he1p] at hne
          rw [hst1]
          exact qtyOf_cons_ne
            (DBProduct.mk st.nextId it.sku it.name it.price n it.description now now now
              Option.none)
            st.products (e :: st.logs) (st.nextId + 1) st.mailsSent
            st.logs st.nextId st.mailsSent pid (fun hcc => hne hcc.symm)
      · exact audit_of_frame st st rfl (fun _ => rfl)
    · rename_i p hfindp
      split
      · exact audit_of_frame st
          (qsUpdateFields st p.id it.name it.price it.description) rfl
          (fun pid => qtyOf_qsUpdateFields st p.id it.name it.price it.description pid)
      · split
        · rename_i st1 hupd
          obtain ⟨e, stp, hls, hps, hst1⟩ := recUpdateChanged_some_inv now st p it st1 hupd
          obtain ⟨he1, he2, he3, he4, he5, he6, he7⟩ := logSave_some_inv now _ e hls
          have he3p : it.inventory_quantity = PyVal.int e.new_quantity := he3
          rw [he3p] at hls
          refine audit_commit_update now st p e.new_quantity "import" "CSV import update"
            stp e (qsUpdateFields st1 p.id it.name it.price it.description)
            hwf (List.mem_of_find?_eq_some hfindp) hps hls ?_ ?_
          · rw [show (qsUpdateFields st1 p.id it.name it.price it.description).logs
                = st1.logs from rfl, hst1]
          · intro pid
            rw [qtyOf_qsUpdateFields st1 p.id it.name it.price it.description pid, hst1]
            unfold qtyOf
            rfl
        · exact audit_of_frame st st rfl (fun _ => rfl)

/-- C1: for every run of any of the three mutation paths — manual update,
webhook update, one batch-reconciliation record — against a well-formed
store, (i) if the run succeeds then every stored quantity that changed is
documented by exactly one newly prepended log entry whose
`previous_quantity`/`new_quantity` equal the stored quantity immediately
before/after the call, and (ii) whenever these paths add any log entry at all
it is exactly one entry and the corresponding quantity write is applied in
the same post-state (the atomic unit commits together or not at all). -/
theorem c1_audit_invariant (now : Int) (st : Store) (call : MutCall) (hwf : StoreWF st) :
    ((runMutation now st call).1 = Resp.ok → AuditOk st (runMutation now st call).2)
    ∧ LogsImplyWrite st (runMutation now st call).2 := by
  cases call with
  | manual pk q notes =>
    have h := manual_audit now st pk q notes hwf
    exact ⟨fun _ => h.1, h.2⟩
  | webhook pl =>
    have h := webhook_audit now st pl hwf
    exact ⟨fun _ => h.1, h.2⟩
  | batchRecord it =>
    have h := batch_audit now st it 0 0 [] hwf
    exact ⟨fun _ => h.1, h.2⟩

/-- C1 witness: the invariant instantiated at a concrete manual update of the
one-product store (quantity 100 → 7). -/
theorem c1_witness :
    StoreWF wStore
    ∧ (((runMutation 5 wStore (MutCall.manual 1 (PyVal.int 7) "w")).1 = Resp.ok
        → AuditOk wStore (runMutation 5 wStore (MutCall.manual 1 (PyVal.int 7) "w")).2)
      ∧ LogsImplyWrite wStore (runMutation 5 wStore (MutCall.manual 1 (PyVal.int 7) "w")).2) :=
  ⟨by decide, c1_audit_invariant 5 wStore (MutCall.manual 1 (PyVal.int 7) "w") (by decide)⟩

/-! ### C9 infrastructure: the settled-record invariant of reconciliation -/

theorem productSaveRow_sku (now : Int) (inst orig : DBProduct) :
    (productSaveRow now inst orig).sku = inst.sku := by
  unfold productSaveRow
  split <;> rfl

theorem nodup_id_inj (ps : List DBProduct) (h : (ps.map (fun q => q.id)).Nodup)
    (x y : DBProduct) (hx : x ∈ ps) (hy : y ∈ ps) (hxy : x.id = y.id) : x = y :=
  List.inj_on_of_nodup_map h hx hy hxy

theorem skuView_qsUpdateFields (st : Store) (pid0 : Nat) (nm pr ds : PyVal) (v : PyVal) :
    skuView (qsUpdateFields st pid0 nm pr ds) v = skuView st v := by
  unfold skuView findBySku qsUpdateFields
  rw [find?_map_pred _ _ st.products (by intro x hx; by_cases h : x.id = pid0 <;> simp [h])]
  cases h : st.products.find? (fun p => decide (p.sku = v)) with
  | none => rfl
  | some x => by_cases hx : x.id = pid0 <;> simp [hx]

theorem skuView_replace_update (st : Store) (v : PyVal) (p row : DBProduct)
    (lg : List LogEntry) (nid : Nat) (ml : List String)
    (hnd : (st.products.map (fun q => q.id)).Nodup)
    (hfind : st.products.find? (fun x => decide (x.sku = v)) = some p)
    (hrowid : row.id = p.id) (hrowsku : row.sku = p.sku) :
    skuView (Store.mk (replaceById st.products row) lg nid ml) v = some row.qty
    ∧ ∀ w, w ≠ v → skuView (Store.mk (replaceById st.products row) lg nid ml) w
        = skuView st w := by
  have hmem : p ∈ st.products := List.mem_of_find?_eq_some hfind
  have hpsku : p.sku = v := by
    have := List.find?_some hfind
    exact of_decide_eq_true this
  have hpres : ∀ w, ∀ x ∈ st.products,
      (decide ((if x.id = row.id then row else x).sku = w)) = decide (x.sku = w) := by
    intro w x hx
    by_cases hid : x.id = row.id
    · have hxp : x = p := nodup_id_inj st.products hnd x p hx hmem (by rw [hid, hrowid])
      rw [if_pos hid, hrowsku, hxp]
    · rw [if_neg hid]
  constructor
  · unfold skuView findBySku
    show ((replaceById st.products row).find? (fun x => decide (x.sku = v))).map
        (fun x => x.qty) = some row.qty
    unfold replaceById
    rw [find?_map_pred _ _ st.products (hpres v), hfind]
    show some (if p.id = row.id then row else p).qty = some row.qty
    rw [if_pos (by rw [hrowid])]
  · intro w hw
    unfold skuView findBySku
    show ((replaceById st.products row).find? (fun x => decide (x.sku = w))).map
        (fun x => x.qty) = (st.products.find? (fun x => decide (x.sku = w))).map
        (fun x => x.qty)
    unfold replaceById
    rw [find?_map_pred _ _ st.products (hpres w)]
    cases hx0 : st.products.find? (fun x => decide (x.sku = w)) with
    | none => rfl
    | some x0 =>
      have hx0m : x0 ∈ st.products := List.mem_of_find?_eq_some hx0
      have hx0sku : x0.sku = w := by
        have := List.find?_some hx0
        exact of_decide_eq_true this
      by_cases hid : x0.id = row.id
      · have hx0p : x0 = p := nodup_id_inj st.products hnd x0 p hx0m hmem (by rw [hid, hrowid])
        exact absurd (by rw [← hx0sku, hx0p, hpsku]) hw.symm
      · show some (if x0.id = row.id then row else x0).qty = some x0.qty
        rw [if_neg hid]

theorem skuView_cons_self (newp : DBProduct) (ps : List DBProduct) (lg : List LogEntry)
    (nid : Nat) (ml : List String) :
    skuView (Store.mk (newp :: ps) lg nid ml) newp.sku = some newp.qty := by
  unfold skuView findBySku
  show ((newp :: ps).find? (fun x => decide (x.sku = newp.sku))).map (fun x => x.qty)
    = some newp.qty
  rw [List.find?_cons, decide_eq_true rfl]
  rfl

theorem skuView_cons_ne (newp : DBProduct) (ps : List DBProduct) (lg : List LogEntry)
    (nid : Nat) (ml : List String) (lg2 : List LogEntry) (nid2 : Nat) (ml2 : List String)
    (w : PyVal) (h : newp.sku ≠ w) :
    skuView (Store.mk (newp :: ps) lg nid ml) w = skuView (Store.mk ps lg2 nid2 ml2) w := by
  unfold skuView findBySku
  show ((newp :: ps).find? (fun x => decide (x.sku = w))).map (fun x => x.qty)
    = (ps.find? (fun x => decide (x.sku = w))).map (fun x => x.qty)
  rw [List.find?_cons, decide_eq_false h]

theorem wf_replaceById (st : Store) (row : DBProduct) (lg : List LogEntry) (ml : List String)
    (hwf : StoreWF st) (hq : 0 ≤ row.qty) :
    StoreWF (Store.mk (replaceById st.products row) lg st.nextId ml) := by
  have hids : (replaceById st.products row).map (fun q => q.id)
      = st.products.map (fun q => q.id) := by
    unfold replaceById
    rw [List.map_map]
    apply List.map_congr_left
    intro x _
    show (if x.id = row.id then row else x).id = x.id
    by_cases h : x.id = row.id
    · rw [if_pos h, h]
    · rw [if_neg h]
  refine ⟨?_, ?_, ?_⟩
  · show ((replaceById st.products row).map (fun q => q.id)).Nodup
    rw [hids]
    exact hwf.1
  · intro x hx
    replace hx : x ∈ st.products.map
        (fun y => if y.id = row.id then row else y) := hx
    obtain ⟨y, hy, hxy⟩ := List.mem_map.mp hx
    subst hxy
    show (if y.id = row.id then row else y).id < st.nextId
    by_cases h : y.id = row.id
    · rw [if_pos h, ← h]
      exact hwf.2.1 y hy
    · rw [if_neg h]
      exact hwf.2.1 y hy
  · intro x hx
    replace hx : x ∈ st.products.map
        (fun y => if y.id = row.id then row else y) := hx
    obtain ⟨y, hy, hxy⟩ := List.mem_map.mp hx
    subst hxy
    show (0:Int) ≤ (if y.id = row.id then row else y).qty
    by_cases h : y.id = row.id
    · rw [if_pos h]
      exact hq
    · rw [if_neg h]
      exact hwf.2.2 y hy

theorem wf_qsUpdateFields (st : Store) (pid0 : Nat) (nm pr ds : PyVal)
    (hwf : StoreWF st) : StoreWF (qsUpdateFields st pid0 nm pr ds) := by
  have hids : ((qsUpdateFields st pid0 nm pr ds).products).map (fun q => q.id)
      = st.products.map (fun q => q.id) := by
    show ((st.products.map (fun q => if q.id = pid0
        then { q with name := nm, price := pr, description := ds } else q)).map
          (fun q => q.id)) = st.products.map (fun q => q.id)
    rw [List.map_map]
    apply List.map_congr_left
    intro x _
    by_cases h : x.id = pid0 <;> simp [h]
  refine ⟨?_, ?_, ?_⟩
  · rw [hids]
    exact hwf.1
  · intro x hx
    replace hx : x ∈ st.products.map (fun q => if q.id = pid0
        then { q with name := nm, price := pr, description := ds } else q) := hx
    obtain ⟨y, hy, hxy⟩ := List.mem_map.mp hx
    subst hxy
    show (if y.id = pid0 then ({ y with name := nm, price := pr, description := ds } : DBProduct)
      else y).id < (qsUpdateFields st pid0 nm pr ds).nextId
    by_cases h : y.id = pid0
    · rw [if_pos h]
      show y.id < st.nextId
      exact hwf.2.1 y hy
    · rw [if_neg h]
      exact hwf.2.1 y hy
  · intro x hx
    replace hx : x ∈ st.products.map (fun q => if q.id = pid0
        then { q with name := nm, price := pr, description := ds } else q) := hx
    obtain ⟨y, hy, hxy⟩ := List.mem_map.mp hx
    subst hxy
    show (0:Int) ≤ (if y.id = pid0
      then ({ y with name := nm, price := pr, description := ds } : DBProduct) else y).qty
    by_cases h : y.id = pid0
    · rw [if_pos h]
      show (0:Int) ≤ y.qty
      exact hwf.2.2 y hy
    · rw [if_neg h]
      exact hwf.2.2 y hy

/-- Processing one record preserves store well-formedness. -/
theorem wf_processItem (now : Int) (acc : RecResult) (it : Item)
    (hwf : StoreWF acc.store) : StoreWF (processItem now acc it).store := by
  unfold processItem
  split
  · exact hwf
  · split
    · split
      · rename_i st1 hcr
        obtain ⟨n, e, hqe, hneg, hls, hst1⟩ := recCreate_some_inv now acc.store it st1 hcr
        rw [hst1]
        refine ⟨?_, ?_, ?_⟩
        · show ((DBProduct.mk acc.store.nextId it.sku it.name it.price n it.description
              now now now Option.none :: acc.store.products).map (fun q => q.id)).Nodup
          rw [show (DBProduct.mk acc.store.nextId it.sku it.name it.price n it.description
              now now now Option.none :: acc.store.products).map (fun q => q.id)
            = acc.store.nextId :: acc.store.products.map (fun q => q.id) from rfl]
          rw [List.nodup_cons]
          refine ⟨?_, hwf.1⟩
          intro hmemid
          obtain ⟨x, hx, hxid⟩ := List.mem_map.mp hmemid
          have := hwf.2.1 x hx
          show False
          omega
        · intro x hx
          rcases List.mem_cons.mp hx with rfl | hxl
          · show acc.store.nextId < acc.store.nextId + 1
            omega
          · have := hwf.2.1 x hxl
            show x.id < acc.store.nextId + 1
            omega
        · intro x hx
          rcases List.mem_cons.mp hx with rfl | hxl
          · show (0:Int) ≤ n
            omega
          · exact hwf.2.2 x hxl
      · exact hwf
    · rename_i p hfindp
      split
      · exact wf_qsUpdateFields acc.store p.id it.name it.price it.description hwf
      · split
        · rename_i st1 hupd
          obtain ⟨e, stp, hls, hps, hst1⟩ := recUpdateChanged_some_inv now acc.store p it st1 hupd
          obtain ⟨he1, he2, he3, he4, he5, he6, he7⟩ := logSave_some_inv now _ e hls
          obtain ⟨orig, horig, hqi, hstp⟩ := productSave_some_inv now acc.store _ stp hps
          apply wf_qsUpdateFields
          have hwfstp : StoreWF stp := by
            rw [hstp]
            exact wf_replaceById acc.store _ acc.store.logs acc.store.mailsSent hwf
              (by rw [productSaveRow_qty]; exact he4)
          rw [hst1]
          exact ⟨hwfstp.1, hwfstp.2.1, hwfstp.2.2⟩
        · exact hwf

/-- Processing a record never removes a SKU from the store: a SKU observable
before the record is still observable after it. -/
theorem skuView_present_pres (now : Int) (acc : RecResult) (it : Item) (v : PyVal)
    (hwf : StoreWF acc.store)
    (hp : skuView acc.store v ≠ Option.none) :
    skuView (processItem now acc it).store v ≠ Option.none := by
  unfold processItem
  split
  · exact hp
  · split
    · split
      · rename_i st1 hcr
        obtain ⟨n, e, hqe, hneg, hls, hst1⟩ := recCreate_some_inv now acc.store it st1 hcr
        rw [hst1]
        by_cases hv : it.sku = v
        · have hsv : skuView (Store.mk
              (DBProduct.mk acc.store.nextId it.sku it.name it.price n it.description
                now now now Option.none :: acc.store.products)
              (e :: acc.store.logs) (acc.store.nextId + 1) acc.store.mailsSent) v
              = some n := by
            rw [← hv]
            exact skuView_cons_self
              (DBProduct.mk acc.store.nextId it.sku it.name it.price n it.description
                now now now Option.none)
              acc.store.products (e :: acc.store.logs) (acc.store.nextId + 1)
              acc.store.mailsSent
          rw [hsv]
          intro hcc
          cases hcc
        · rw [skuView_cons_ne
            (DBProduct.mk acc.store.nextId it.sku it.name it.price n it.description
              now now now Option.none)
            acc.store.products (e :: acc.store.logs) (acc.store.nextId + 1)
            acc.store.mailsSent acc.store.logs acc.store.nextId acc.store.mailsSent v hv]
          exact hp
      · exact hp
    · rename_i p hfindp
      split
      · rw [skuView_qsUpdateFields]
        exact hp
      · split
        · rename_i st1 hupd
          obtain ⟨e, stp, hls, hps, hst1⟩ := recUpdateChanged_some_inv now acc.store p it st1 hupd
          obtain ⟨orig, horig, hqi, hstp⟩ := productSave_some_inv now acc.store _ stp hps
          have hfp : acc.store.products.find? (fun x => decide (x.id = p.id)) = some p :=
            nodup_find_by_id acc.store.products hwf.1 p (List.mem_of_find?_eq_some hfindp)
          have horig2 : acc.store.products.find? (fun x => decide (x.id = p.id))
              = some orig := horig
          have horigp : orig = p := Option.some_inj.mp (horig2.symm.trans hfp)
          rw [horigp] at hstp
          rw [skuView_qsUpdateFields, hst1]
          have hsk : skuView (Store.mk stp.products (e :: stp.logs) stp.nextId stp.mailsSent)
              v = skuView stp v := rfl
          rw [hsk, hstp]
          have hrep := skuView_replace_update acc.store it.sku p
            (productSaveRow now { p with qty := e.new_quantity } p)
            acc.store.logs acc.store.nextId acc.store.mailsSent hwf.1 hfindp
            (productSaveRow_id now { p with qty := e.new_quantity } p)
            (productSaveRow_sku now { p with qty := e.new_quantity } p)
          by_cases hv : v = it.sku
          · rw [hv, hrep.1]
            intro hcc
            cases hcc
          · rw [hrep.2 v hv]
            exact hp
        · exact hp

theorem skuView_present_fold (now : Int) (batch : List Item) (acc : RecResult) (v : PyVal)
    (hwf : StoreWF acc.store) (hp : skuView acc.store v ≠ Option.none) :
    skuView ((batch.foldl (processItem now) acc).store) v ≠ Option.none := by
  induction batch generalizing acc with
  | nil => exact hp
  | cons a t ih =>
    exact ih (processItem now acc a) (wf_processItem now acc a hwf)
      (skuView_present_pres now acc a v hwf hp)

